import Mathlib

/-!
# Verification of the EnerGov attachment acquisition engine

Shallow embedding of the Python sources (`analyzer.py`, `fast_download.py`,
`download_attachments.py`, `batch_scraper.py`, `energov_scraper.py`) together
with proofs of the behavioural properties stated in the design document.

Conventions:
* Python lists become Lean `List`s; `list.remove(x)` is `List.erase` guarded by
  membership exactly as in the source.
* The filesystem is an association list from paths to abstract content ids;
  network responses come from oracle functions passed in as parameters.
* Machine strings are Lean `String`s viewed as `List Char` where needed.
-/

namespace EnerGov

/-! ## Attachment records and discovery dedup (`analyzer.py` 284-291,
`fast_download.py` 54-62)

```python
pdf_attachments = [a for a in attachments if a.get("FileName", "").lower().endswith(".pdf")]
seen = set()
unique_pdfs = []
for a in pdf_attachments:
    fn = a.get("FileName")
    if fn not in seen:
        seen.add(fn)
        unique_pdfs.append(a)
```
-/

/-- An attachment record as used by the discovery post-processing: only the
`FileName` key and the (nullable) direct-download URL matter here. -/
structure AttachmentRecord where
  fileName : String
  downloadUrl : Option String := none
  attachmentId : String := ""
  deriving DecidableEq, Repr

/-- The `seen`-set loop of the source, with `seen` as the list of file names
already emitted. -/
def dedupeGo (seen : List String) : List AttachmentRecord → List AttachmentRecord
  | [] => []
  | a :: rest =>
    if a.fileName ∈ seen then dedupeGo seen rest
    else a :: dedupeGo (a.fileName :: seen) rest

/-- Deduplication exactly as the source performs it (empty `seen` set). -/
def dedupeByFileName (l : List AttachmentRecord) : List AttachmentRecord :=
  dedupeGo [] l

/-- Python `s.lower()`: lower-case every character. -/
def pyLower (s : String) : String :=
  ⟨s.data.map Char.toLower⟩

/-- Python `s.endswith(suffix)`. -/
def pyEndsWith (s suffix : String) : Bool :=
  suffix.data.isSuffixOf s.data

/-- Python `s.lower().endswith(".pdf")`. -/
def isPdfName (s : String) : Bool :=
  pyEndsWith (pyLower s) ".pdf"

/-- `unique_pdfs` of the source: filter to `.pdf` names, then dedupe by file
name with first occurrence winning. -/
def uniquePdfs (attachments : List AttachmentRecord) : List AttachmentRecord :=
  dedupeByFileName (attachments.filter fun a => isPdfName a.fileName)

/-- Specification-side dedup, written after the words of the design document:
keep the first occurrence of each file name in original order and drop every
later record bearing an already-seen name. -/
def dedupSpec : List AttachmentRecord → List AttachmentRecord
  | [] => []
  | a :: rest =>
    a :: dedupSpec (rest.filter fun b => b.fileName ≠ a.fileName)
termination_by l => l.length
decreasing_by
  simp only [List.length_cons]
  exact Nat.lt_succ_of_le (List.length_filter_le _ _)

theorem dedupeGo_eq_dedupSpec (seen : List String) (l : List AttachmentRecord) :
    dedupeGo seen l = dedupSpec (l.filter fun b => b.fileName ∉ seen) := by
  induction l generalizing seen with
  | nil => simp [dedupeGo, dedupSpec]
  | cons a rest ih =>
    by_cases h : a.fileName ∈ seen
    · rw [dedupeGo, if_pos h, List.filter_cons_of_neg (by simpa using h), ih]
    · have hfl : rest.filter (fun b => b.fileName ∉ (a.fileName :: seen)) =
          (rest.filter fun b => b.fileName ∉ seen).filter
            fun b => b.fileName ≠ a.fileName := by
        rw [List.filter_filter]
        congr 1
        funext b
        by_cases hb : b.fileName = a.fileName <;> simp [hb, List.mem_cons]
      rw [dedupeGo, if_neg h, List.filter_cons_of_pos (by simpa using h),
        ih (a.fileName :: seen), hfl, dedupSpec]

/-- The source's loop and the specification's first-occurrence dedup agree on
every input list. -/
theorem dedupeByFileName_eq_dedupSpec (l : List AttachmentRecord) :
    dedupeByFileName l = dedupSpec l := by
  rw [dedupeByFileName, dedupeGo_eq_dedupSpec]
  congr 1
  simp

/-- C1: discovery post-processing deduplicates by `fileName`, keeping the first
occurrence of each name in original order and dropping later duplicates (the
loop coincides with the first-occurrence specification on every input), and on
the record list `[a.pdf, a.pdf, b.pdf]` it yields exactly the file names
`["a.pdf", "b.pdf"]` in that order. -/
theorem dedup_first_occurrence_wins :
    (∀ l : List AttachmentRecord, dedupeByFileName l = dedupSpec l) ∧
    (uniquePdfs [⟨"a.pdf", none, ""⟩, ⟨"a.pdf", none, ""⟩, ⟨"b.pdf", none, ""⟩]).map
        AttachmentRecord.fileName = ["a.pdf", "b.pdf"] := by
  refine ⟨dedupeByFileName_eq_dedupSpec, ?_⟩
  rfl

/-! ## Batch progress tracker (`batch_scraper.py` 50-109)

The tracker keeps `self.data` (in-memory state) and a persisted JSON file.
We model the pair as a `TrackerWorld`: `mem` is `self.data`, `disk` is the
content of the progress file (`none` when the file does not exist). -/

/-- The `{"completed": [...], "failed": [...], "pending": [...]}` dictionary. -/
structure ProgressState where
  completed : List String
  failed : List String
  pending : List String
  deriving DecidableEq, Repr

def emptyProgress : ProgressState := ⟨[], [], []⟩

/-- In-memory data paired with the persisted progress file. -/
structure TrackerWorld where
  mem : ProgressState
  disk : Option ProgressState
  deriving DecidableEq, Repr

/-- `_load`: read the file if it exists, else the empty dictionary. -/
def loadProgress (disk : Option ProgressState) : ProgressState :=
  disk.getD emptyProgress

/-- `ProgressTracker.__init__`: `self.data = self._load()`. -/
def initTracker (disk : Option ProgressState) : TrackerWorld :=
  ⟨loadProgress disk, disk⟩

/-- `_save`: full rewrite of the persisted file from the in-memory state. -/
def saveTracker (w : TrackerWorld) : TrackerWorld :=
  ⟨w.mem, some w.mem⟩

/-- Python `if x in l: l.remove(x)` (remove the first occurrence). -/
def pyRemove (l : List String) (x : String) : List String :=
  if x ∈ l then l.erase x else l

/-- Python `if x not in l: l.append(x)`. -/
def pyAppendIfAbsent (l : List String) (x : String) : List String :=
  if x ∉ l then l ++ [x] else l

/-- `set_pending`: overwrite `pending`, then save. -/
def set_pending (ids : List String) (w : TrackerWorld) : TrackerWorld :=
  saveTracker ⟨{ w.mem with pending := ids }, w.disk⟩

/-- `mark_completed`: drop from `pending`, append to `completed` if absent,
drop from `failed`, then save. -/
def mark_completed (x : String) (w : TrackerWorld) : TrackerWorld :=
  let st₁ := { w.mem with pending := pyRemove w.mem.pending x }
  let st₂ := { st₁ with completed := pyAppendIfAbsent st₁.completed x }
  let st₃ := { st₂ with failed := pyRemove st₂.failed x }
  saveTracker ⟨st₃, w.disk⟩

/-- `mark_failed`: drop from `pending`, append to `failed` if absent, then
save (the error text is printed, not recorded in the state). -/
def mark_failed (x : String) (_error : String) (w : TrackerWorld) : TrackerWorld :=
  let st₁ := { w.mem with pending := pyRemove w.mem.pending x }
  let st₂ := { st₁ with failed := pyAppendIfAbsent st₁.failed x }
  saveTracker ⟨st₂, w.disk⟩

/-- `get_remaining`. -/
def get_remaining (w : TrackerWorld) : List String :=
  w.mem.pending

/-- `reset`: replace the state with the empty dictionary, then save. -/
def resetTracker (w : TrackerWorld) : TrackerWorld :=
  saveTracker ⟨emptyProgress, w.disk⟩

/-- A process crash discards the in-memory state; restarting re-loads the
tracker from whatever the file holds. -/
def crashReload (w : TrackerWorld) : TrackerWorld :=
  initTracker w.disk

/-- C3: every mutating tracker call persists the full state before returning
(the file afterwards holds exactly the in-memory state), and from a persisted
state with `pending = [x, y, z]`, after `mark_completed x` and a crash, a
tracker re-loaded from the same file reports `remaining = [y, z]` and its
completed list still contains `x`. -/
theorem tracker_persists_and_resumes :
    (∀ (w : TrackerWorld) (ids : List String) (x e : String),
      (set_pending ids w).disk = some (set_pending ids w).mem ∧
      (mark_completed x w).disk = some (mark_completed x w).mem ∧
      (mark_failed x e w).disk = some (mark_failed x e w).mem ∧
      (resetTracker w).disk = some (resetTracker w).mem) ∧
    (∀ (x y z : String) (comp fail : List String),
      get_remaining
        (crashReload (mark_completed x
          (initTracker (some ⟨comp, fail, [x, y, z]⟩)))) = [y, z] ∧
      x ∈ (crashReload (mark_completed x
          (initTracker (some ⟨comp, fail, [x, y, z]⟩)))).mem.completed) := by
  constructor
  · intro w ids x e
    exact ⟨rfl, rfl, rfl, rfl⟩
  · intro x y z comp fail
    constructor
    · simp [get_remaining, crashReload, initTracker, loadProgress, mark_completed,
        saveTracker, pyRemove, List.erase_cons_head]
    · simp only [crashReload, mark_completed, initTracker, loadProgress,
        saveTracker, Option.getD_some]
      by_cases hx : x ∈ comp <;>
        simp [pyAppendIfAbsent, hx]

/-! ### Reachable tracker states and the disjointness invariant -/

/-- One tracker mutation, as issued by a caller. -/
inductive TrackerOp where
  | setPending (ids : List String)
  | markCompleted (id : String)
  | markFailed (id : String) (error : String)
  | resetOp
  deriving DecidableEq, Repr

def applyOp (w : TrackerWorld) : TrackerOp → TrackerWorld
  | .setPending ids => set_pending ids w
  | .markCompleted x => mark_completed x w
  | .markFailed x e => mark_failed x e w
  | .resetOp => resetTracker w

/-- Run a sequence of tracker operations. -/
def runOps (w : TrackerWorld) (ops : List TrackerOp) : TrackerWorld :=
  ops.foldl applyOp w

/-- C4 fails on the code: from the empty state, `mark_completed "a"` followed
by `mark_failed "a"` leaves `"a"` in both `completed` and `failed`
(`mark_failed` never removes an identifier from `completed`), so the three
sets of the reached state are not pairwise disjoint. -/
theorem tracker_disjoint_counterexample :
    "a" ∈ (runOps (initTracker none)
        [.markCompleted "a", .markFailed "a" "err"]).mem.completed ∧
    "a" ∈ (runOps (initTracker none)
        [.markCompleted "a", .markFailed "a" "err"]).mem.failed := by
  constructor <;> decide

/-- Pairwise disjointness of the three membership sets plus duplicate-freeness
of `pending`. -/
structure ProgressInv (st : ProgressState) : Prop where
  nodupPending : st.pending.Nodup
  pc : ∀ a ∈ st.pending, a ∉ st.completed
  pf : ∀ a ∈ st.pending, a ∉ st.failed
  cf : ∀ a ∈ st.completed, a ∉ st.failed

/-- Traces of tracker operations in which `set_pending` is only given
duplicate-free identifier lists disjoint from the already-recorded
`completed` and `failed` sets, and `mark_completed`/`mark_failed` are only
invoked on identifiers currently pending (which is how `scrape_batch` drives
the tracker when the progress file starts out empty). -/
inductive GuardedTrace : TrackerWorld → TrackerWorld → Prop where
  | refl (w : TrackerWorld) : GuardedTrace w w
  | setPending {w w' : TrackerWorld} (ids : List String) :
      GuardedTrace w w' → ids.Nodup →
      (∀ i ∈ ids, i ∉ w'.mem.completed ∧ i ∉ w'.mem.failed) →
      GuardedTrace w (set_pending ids w')
  | markCompleted {w w' : TrackerWorld} (x : String) :
      GuardedTrace w w' → x ∈ w'.mem.pending →
      GuardedTrace w (mark_completed x w')
  | markFailed {w w' : TrackerWorld} (x e : String) :
      GuardedTrace w w' → x ∈ w'.mem.pending →
      GuardedTrace w (mark_failed x e w')
  | resetStep {w w' : TrackerWorld} :
      GuardedTrace w w' → GuardedTrace w (resetTracker w')

theorem progressInv_empty : ProgressInv emptyProgress := by
  refine ⟨List.nodup_nil, ?_, ?_, ?_⟩ <;> intro a ha <;> simp [emptyProgress] at ha

theorem progressInv_set_pending {w : TrackerWorld} (ids : List String)
    (hn : ids.Nodup) (hdisj : ∀ i ∈ ids, i ∉ w.mem.completed ∧ i ∉ w.mem.failed)
    (h : ProgressInv w.mem) : ProgressInv (set_pending ids w).mem := by
  refine ⟨hn, ?_, ?_, h.cf⟩
  · intro a ha
    exact (hdisj a ha).1
  · intro a ha
    exact (hdisj a ha).2

theorem progressInv_mark_completed {w : TrackerWorld} (x : String)
    (hx : x ∈ w.mem.pending) (h : ProgressInv w.mem) :
    ProgressInv (mark_completed x w).mem := by
  have hxc : x ∉ w.mem.completed := h.pc x hx
  have hxf : x ∉ w.mem.failed := h.pf x hx
  have hpend : pyRemove w.mem.pending x = w.mem.pending.erase x := by
    simp [pyRemove, hx]
  have hcomp : pyAppendIfAbsent w.mem.completed x = w.mem.completed ++ [x] := by
    simp [pyAppendIfAbsent, hxc]
  have hfail : pyRemove w.mem.failed x = w.mem.failed := by
    simp [pyRemove, hxf]
  refine ⟨?_, ?_, ?_, ?_⟩
  · simpa [mark_completed, saveTracker, hpend] using h.nodupPending.erase x
  · intro a ha hac
    simp only [mark_completed, saveTracker, hpend, hcomp] at ha hac
    have := (h.nodupPending.mem_erase_iff).mp ha
    rcases List.mem_append.mp hac with hc | hc
    · exact h.pc a this.2 hc
    · exact this.1 (by simpa using hc)
  · intro a ha haf
    simp only [mark_completed, saveTracker, hpend, hfail] at ha haf
    have := (h.nodupPending.mem_erase_iff).mp ha
    exact h.pf a this.2 haf
  · intro a ha haf
    simp only [mark_completed, saveTracker, hcomp, hfail] at ha haf
    rcases List.mem_append.mp ha with hc | hc
    · exact h.cf a hc haf
    · have : a = x := by simpa using hc
      exact hxf (this ▸ haf)

theorem progressInv_mark_failed {w : TrackerWorld} (x e : String)
    (hx : x ∈ w.mem.pending) (h : ProgressInv w.mem) :
    ProgressInv (mark_failed x e w).mem := by
  have hxc : x ∉ w.mem.completed := h.pc x hx
  have hxf : x ∉ w.mem.failed := h.pf x hx
  have hpend : pyRemove w.mem.pending x = w.mem.pending.erase x := by
    simp [pyRemove, hx]
  have hfail : pyAppendIfAbsent w.mem.failed x = w.mem.failed ++ [x] := by
    simp [pyAppendIfAbsent, hxf]
  refine ⟨?_, ?_, ?_, ?_⟩
  · simpa [mark_failed, saveTracker, hpend] using h.nodupPending.erase x
  · intro a ha hac
    simp only [mark_failed, saveTracker, hpend] at ha hac
    have := (h.nodupPending.mem_erase_iff).mp ha
    exact h.pc a this.2 hac
  · intro a ha haf
    simp only [mark_failed, saveTracker, hpend, hfail] at ha haf
    have := (h.nodupPending.mem_erase_iff).mp ha
    rcases List.mem_append.mp haf with hf | hf
    · exact h.pf a this.2 hf
    · exact this.1 (by simpa using hf)
  · intro a ha haf
    simp only [mark_failed, saveTracker, hfail] at ha haf
    rcases List.mem_append.mp haf with hf | hf
    · exact h.cf a ha hf
    · have : a = x := by simpa using hf
      exact hxc (this ▸ ha)

theorem progressInv_reset (w : TrackerWorld) : ProgressInv (resetTracker w).mem :=
  progressInv_empty

/-- C4 amended: along every trace from the freshly-initialised tracker (no
progress file) in which `set_pending` arguments are duplicate-free and
disjoint from the recorded `completed`/`failed` sets and completion/failure
marks only hit pending identifiers, the three sets stay pairwise disjoint. -/
theorem tracker_disjoint_guarded (w : TrackerWorld)
    (h : GuardedTrace (initTracker none) w) :
    (∀ a ∈ w.mem.pending, a ∉ w.mem.completed) ∧
    (∀ a ∈ w.mem.pending, a ∉ w.mem.failed) ∧
    (∀ a ∈ w.mem.completed, a ∉ w.mem.failed) := by
  have inv : ProgressInv w.mem := by
    induction h with
    | refl => exact progressInv_empty
    | setPending ids _ hn hdisj ih => exact progressInv_set_pending ids hn hdisj ih
    | markCompleted x _ hx ih => exact progressInv_mark_completed x hx ih
    | markFailed x e _ hx ih => exact progressInv_mark_failed x e hx ih
    | resetStep _ ih => exact progressInv_reset _
  exact ⟨inv.pc, inv.pf, inv.cf⟩

/-- Witness for the amended C4: a concrete guarded trace (`set_pending
["a","b"]`, then `mark_completed "a"`) reaches a state whose sets are
pairwise disjoint. -/
theorem tracker_disjoint_guarded_witness :
    "a" ∉ (mark_completed "a" (set_pending ["a", "b"]
        (initTracker none))).mem.failed := by
  have htr : GuardedTrace (initTracker none)
      (mark_completed "a" (set_pending ["a", "b"] (initTracker none))) := by
    refine GuardedTrace.markCompleted "a" ?_ (by decide)
    exact GuardedTrace.setPending ["a", "b"] (GuardedTrace.refl _) (by decide)
      (by decide)
  exact (tracker_disjoint_guarded _ htr).2.2 "a" (by decide)

/-- C5 fails on the code: `set_pending` does not clear `completed` or
`failed`; starting from a state with `completed = ["a"]` and
`failed = ["b"]`, `set_pending ["c"]` leaves both lists as they were, so
they are not both empty afterwards. -/
theorem set_pending_clears_counterexample :
    ¬ ((set_pending ["c"] (initTracker (some ⟨["a"], ["b"], []⟩))).mem.completed = [] ∧
       (set_pending ["c"] (initTracker (some ⟨["a"], ["b"], []⟩))).mem.failed = []) := by
  decide

/-- C5 amended: for every prior tracker state and identifier list,
`set_pending` sets `pending` to exactly the given list, leaves `completed`
and `failed` unchanged, and persists the state. -/
theorem set_pending_sets_pending (w : TrackerWorld) (ids : List String) :
    (set_pending ids w).mem.pending = ids ∧
    (set_pending ids w).mem.completed = w.mem.completed ∧
    (set_pending ids w).mem.failed = w.mem.failed ∧
    (set_pending ids w).disk = some (set_pending ids w).mem :=
  ⟨rfl, rfl, rfl, rfl⟩

/-! ## Download resolver (`energov_scraper.py` 554-671, `fast_download.py`
163-167)

`download_attachment` computes the destination path, returns immediately when
a file already sits there, and otherwise tries three tiers: the record's
direct download URL, a UI click-to-download, and constructed API endpoints.
The filesystem is an association list from paths to abstract content ids;
network responses come from two oracles (`remote` for HTTP fetches — `none`
models an exception or a non-200 status — and `ui` for the click-triggered
browser download). -/

/-- `re.sub(r'[^\w\-_\. ]', '_', name)` on one character (ASCII `\w`). -/
def sanitizeChar (c : Char) : Char :=
  if c.isAlphanum || c = '_' || c = '-' || c = '.' || c = ' ' then c else '_'

/-- File-name sanitization as in the source. -/
def sanitizeName (s : String) : String :=
  ⟨s.data.map sanitizeChar⟩

/-- Python `s.startswith(pre)`. -/
def pyStartsWith (s pre : String) : Bool :=
  pre.data.isPrefixOf s.data

/-- An association-list filesystem: path to abstract content id. -/
structure FileSystem where
  files : List (String × Nat)
  deriving DecidableEq, Repr

def FileSystem.pathExists (fs : FileSystem) (p : String) : Bool :=
  (fs.files.lookup p).isSome

def FileSystem.write (fs : FileSystem) (p : String) (c : Nat) : FileSystem :=
  ⟨(p, c) :: fs.files⟩

theorem FileSystem.pathExists_write (fs : FileSystem) (p q : String) (c : Nat)
    (h : fs.pathExists p = true) : (fs.write q c).pathExists p = true := by
  unfold FileSystem.pathExists at h
  unfold FileSystem.pathExists FileSystem.write
  simp only [List.lookup]
  cases hpq : p == q
  · exact h
  · rfl

theorem FileSystem.pathExists_write_self (fs : FileSystem) (p : String) (c : Nat) :
    (fs.write p c).pathExists p = true := by
  simp [FileSystem.pathExists, FileSystem.write, List.lookup]

/-- The network oracles: `remote url` gives the body of a direct HTTP fetch
(`none` for an exception or non-200 response, else content id and byte
length); `ui fileName` gives the bytes delivered by the click-triggered
browser download, `none` when the click or the download event times out. -/
structure DownloadEnv where
  remote : String → Option (Nat × Nat)
  ui : String → Option Nat

def API_BASE : String :=
  "https://energov.miamidade.gov/EnerGov_Prod/SelfService/api"

/-- The three constructed endpoints of Method 3. -/
def endpointUrls (attachmentId : String) : List String :=
  [API_BASE ++ "/energov/entity/attachments/download/" ++ attachmentId,
   API_BASE ++ "/energov/attachments/" ++ attachmentId ++ "/download",
   API_BASE ++ "/document/" ++ attachmentId]

/-- Destination path `pdf_dir / case_id / safe_name`. -/
def destPath (pdfDir caseId : String) (a : AttachmentRecord) : String :=
  pdfDir ++ "/" ++ caseId ++ "/" ++ sanitizeName a.fileName

/-- Method 3's loop over constructed endpoints: first endpoint whose response
has status 200 and more than 100 bytes wins; every attempt is one fetch. -/
def tryEndpoints (remote : String → Option (Nat × Nat)) :
    List String → Option Nat × Nat
  | [] => (none, 0)
  | url :: rest =>
    match remote url with
    | some (c, len) =>
      if 100 < len then (some c, 1)
      else
        let (r, n) := tryEndpoints remote rest
        (r, n + 1)
    | none =>
      let (r, n) := tryEndpoints remote rest
      (r, n + 1)

/-- Method 1: the record's direct download URL (content id on success, fetch
count). -/
def directTier (env : DownloadEnv) (a : AttachmentRecord) : Option Nat × Nat :=
  match a.downloadUrl with
  | some url =>
    if pyStartsWith url "http" then
      match env.remote url with
      | some (c, len) => if 100 < len then (some c, 1) else (none, 1)
      | none => (none, 1)
    else (none, 0)
  | none => (none, 0)

/-- The three download methods in their source order: direct URL, UI click,
constructed endpoints (the last only when an attachment id is known). The
network behaviour does not depend on the filesystem, so the tiers are
resolved first and the filesystem effect applied afterwards. -/
def resolveTiers (env : DownloadEnv) (a : AttachmentRecord) : Option Nat × Nat :=
  match directTier env a with
  | (some c, n) => (some c, n)
  | (none, n₁) =>
    match env.ui a.fileName with
    | some c => (some c, n₁ + 1)
    | none =>
      if a.attachmentId ≠ "" then
        match tryEndpoints env.remote (endpointUrls a.attachmentId) with
        | (some c, n₃) => (some c, n₁ + 1 + n₃)
        | (none, n₃) => (none, n₁ + 1 + n₃)
      else (none, n₁ + 1)

/-- `download_attachment`: returns the filesystem after the call, the number
of network fetches performed, and the local path on success. -/
def download_attachment (env : DownloadEnv) (pdfDir caseId : String)
    (fs : FileSystem) (a : AttachmentRecord) : FileSystem × Nat × Option String :=
  let path := destPath pdfDir caseId a
  if fs.pathExists path then (fs, 0, some path)
  else
    match resolveTiers env a with
    | (some c, n) => (fs.write path c, n, some path)
    | (none, n) => (fs, n, none)

/-- `download_all_attachments`: fold `download_attachment` over the records,
collecting paths of successful downloads and the total fetch count. -/
def download_all (env : DownloadEnv) (pdfDir caseId : String)
    (fs : FileSystem) : List AttachmentRecord → FileSystem × Nat × List String
  | [] => (fs, 0, [])
  | a :: rest =>
    let (fs₁, n₁, p) := download_attachment env pdfDir caseId fs a
    let (fs₂, n₂, ps) := download_all env pdfDir caseId fs₁ rest
    (fs₂, n₁ + n₂, match p with | some q => q :: ps | none => ps)

/-- An attachment some download tier can fetch, independently of the
filesystem: a working direct URL, a working UI click, or a working
constructed endpoint. -/
def Fetchable (env : DownloadEnv) (a : AttachmentRecord) : Prop :=
  (∃ url c len, a.downloadUrl = some url ∧ pyStartsWith url "http" = true ∧
    env.remote url = some (c, len) ∧ 100 < len) ∨
  (∃ c, env.ui a.fileName = some c) ∨
  (a.attachmentId ≠ "" ∧
    ∃ c n, tryEndpoints env.remote (endpointUrls a.attachmentId) = (some c, n))

theorem download_attachment_skip (env : DownloadEnv) (pdfDir caseId : String)
    (fs : FileSystem) (a : AttachmentRecord)
    (h : fs.pathExists (destPath pdfDir caseId a) = true) :
    download_attachment env pdfDir caseId fs a =
      (fs, 0, some (destPath pdfDir caseId a)) := by
  simp [download_attachment, h]

theorem resolveTiers_isSome (env : DownloadEnv) (a : AttachmentRecord)
    (h : Fetchable env a) : (resolveTiers env a).1.isSome = true := by
  unfold resolveTiers
  split
  · rfl
  · next n₁ heqdir =>
    split
    · rfl
    · next hui =>
      split
      · next hid =>
        split
        · rfl
        · next n₃ heqtr =>
          exfalso
          rcases h with ⟨url, c, len, hurl, hh, hrem, hlen⟩ | ⟨c, hc⟩ | ⟨hid₂, c, m, htr⟩
          · simp [directTier, hurl, hh, hrem, hlen] at heqdir
          · rw [hui] at hc
            exact absurd hc (by simp)
          · rw [htr] at heqtr
            exact absurd heqtr (by simp)
      · next hid =>
        exfalso
        rcases h with ⟨url, c, len, hurl, hh, hrem, hlen⟩ | ⟨c, hc⟩ | ⟨hid₂, c, m, htr⟩
        · simp [directTier, hurl, hh, hrem, hlen] at heqdir
        · rw [hui] at hc
          exact absurd hc (by simp)
        · exact hid hid₂

theorem download_attachment_fetchable_success (env : DownloadEnv)
    (pdfDir caseId : String) (fs : FileSystem) (a : AttachmentRecord)
    (h : Fetchable env a) :
    (download_attachment env pdfDir caseId fs a).1.pathExists
        (destPath pdfDir caseId a) = true := by
  unfold download_attachment
  by_cases hex : fs.pathExists (destPath pdfDir caseId a) = true
  · rw [if_pos hex]
    exact hex
  · rw [if_neg hex]
    have hsome := resolveTiers_isSome env a h
    rcases hres : resolveTiers env a with ⟨r, n⟩
    rw [hres] at hsome
    rcases r with _ | c
    · exact absurd hsome (by simp)
    · exact FileSystem.pathExists_write_self fs _ c

theorem download_attachment_mono (env : DownloadEnv) (pdfDir caseId : String)
    (fs : FileSystem) (a : AttachmentRecord) (p : String)
    (h : fs.pathExists p = true) :
    (download_attachment env pdfDir caseId fs a).1.pathExists p = true := by
  unfold download_attachment
  by_cases hex : fs.pathExists (destPath pdfDir caseId a) = true
  · rw [if_pos hex]
    exact h
  · rw [if_neg hex]
    rcases hres : resolveTiers env a with ⟨r, n⟩
    rcases r with _ | c
    · exact h
    · exact FileSystem.pathExists_write fs p _ c h

theorem download_all_mono (env : DownloadEnv) (pdfDir caseId : String)
    (atts : List AttachmentRecord) (fs : FileSystem) (p : String)
    (h : fs.pathExists p = true) :
    (download_all env pdfDir caseId fs atts).1.pathExists p = true := by
  induction atts generalizing fs with
  | nil => exact h
  | cons a rest ih =>
    simp only [download_all]
    exact ih _ (download_attachment_mono env pdfDir caseId fs a p h)

theorem download_all_covers (env : DownloadEnv) (pdfDir caseId : String)
    (atts : List AttachmentRecord) (fs : FileSystem)
    (h : ∀ a ∈ atts, Fetchable env a) :
    ∀ a ∈ atts,
      (download_all env pdfDir caseId fs atts).1.pathExists
        (destPath pdfDir caseId a) = true := by
  induction atts generalizing fs with
  | nil => intro a ha; exact absurd ha (List.not_mem_nil a)
  | cons b rest ih =>
    intro a ha
    simp only [download_all]
    rcases List.mem_cons.mp ha with rfl | ha
    · exact download_all_mono env pdfDir caseId rest _ _
        (download_attachment_fetchable_success env pdfDir caseId fs a
          (h a (List.mem_cons_self a rest)))
    · exact ih _ (fun a ha => h a (List.mem_cons_of_mem b ha)) a ha

theorem download_all_skip (env : DownloadEnv) (pdfDir caseId : String)
    (atts : List AttachmentRecord) (fs : FileSystem)
    (h : ∀ a ∈ atts, fs.pathExists (destPath pdfDir caseId a) = true) :
    download_all env pdfDir caseId fs atts =
      (fs, 0, atts.map (destPath pdfDir caseId)) := by
  induction atts with
  | nil => rfl
  | cons a rest ih =>
    simp only [download_all,
      download_attachment_skip env pdfDir caseId fs a
        (h a (List.mem_cons_self a rest)),
      ih (fun b hb => h b (List.mem_cons_of_mem a hb)), List.map_cons]

/-- C2 fails in full generality: for an attachment no tier can fetch (no
direct URL, no UI download, no attachment id), the first run writes nothing,
so a second run against the unchanged remote attempts the download again —
one network fetch, not zero. -/
theorem download_idempotent_counterexample :
    (download_all ⟨fun _ => none, fun _ => none⟩ "out" "case1"
        (download_all ⟨fun _ => none, fun _ => none⟩ "out" "case1" ⟨[]⟩
          [⟨"a.pdf", none, ""⟩]).1
        [⟨"a.pdf", none, ""⟩]).2.1 ≠ 0 := by
  decide

/-- C2 amended: an attachment whose destination path already holds a file is
resolved as a success with zero network fetches and an unchanged filesystem;
hence when every attachment of a case is fetchable (the first acquisition
run succeeds on all of them), re-running the same acquisition performs zero
network fetches and leaves the file set identical. -/
theorem download_resolver_idempotent :
    (∀ (env : DownloadEnv) (pdfDir caseId : String) (fs : FileSystem)
       (a : AttachmentRecord),
      fs.pathExists (destPath pdfDir caseId a) = true →
      download_attachment env pdfDir caseId fs a =
        (fs, 0, some (destPath pdfDir caseId a))) ∧
    (∀ (env : DownloadEnv) (pdfDir caseId : String) (fs₀ : FileSystem)
       (atts : List AttachmentRecord),
      (∀ a ∈ atts, Fetchable env a) →
      download_all env pdfDir caseId
          (download_all env pdfDir caseId fs₀ atts).1 atts =
        ((download_all env pdfDir caseId fs₀ atts).1, 0,
          atts.map (destPath pdfDir caseId))) := by
  refine ⟨download_attachment_skip, ?_⟩
  intro env pdfDir caseId fs₀ atts h
  exact download_all_skip env pdfDir caseId atts _
    (download_all_covers env pdfDir caseId atts fs₀ h)

/-- Witness for C2 at a concrete input: one attachment with a working direct
URL; the second run over the already-populated filesystem performs zero
fetches, and a pre-existing file is skipped with success. -/
theorem download_resolver_idempotent_witness :
    (download_attachment
        ⟨fun _ => some (7, 200), fun _ => none⟩ "out" "case1"
        ⟨[("out/case1/a.pdf", 7)]⟩ ⟨"a.pdf", some "http://x/a", ""⟩ =
      (⟨[("out/case1/a.pdf", 7)]⟩, 0, some "out/case1/a.pdf")) ∧
    (download_all ⟨fun _ => some (7, 200), fun _ => none⟩ "out" "case1"
        (download_all ⟨fun _ => some (7, 200), fun _ => none⟩ "out" "case1"
          ⟨[]⟩ [⟨"a.pdf", some "http://x/a", ""⟩]).1
        [⟨"a.pdf", some "http://x/a", ""⟩] =
      ((download_all ⟨fun _ => some (7, 200), fun _ => none⟩ "out" "case1"
          ⟨[]⟩ [⟨"a.pdf", some "http://x/a", ""⟩]).1, 0,
        ["out/case1/a.pdf"])) := by
  constructor
  · exact download_resolver_idempotent.1 _ "out" "case1" _ _ (by rfl)
  · exact download_resolver_idempotent.2 _ "out" "case1" _ _
      (by
        intro a ha
        simp only [List.mem_singleton] at ha
        subst ha
        exact Or.inl ⟨"http://x/a", 7, 200, rfl, by decide, rfl, by decide⟩)

/-! ## Case-folder rename on plan-number resolution (`fast_download.py`
78-82, `download_attachments.py` 53-57)

```python
new_dir = output_dir / plan_number
if new_dir != plan_dir and not new_dir.exists():
    plan_dir.rename(new_dir)
    plan_dir = new_dir
```
-/

/-- The set of existing directories under the output root. -/
structure DirSystem where
  dirs : List String
  deriving DecidableEq, Repr

def DirSystem.dirExists (d : DirSystem) (p : String) : Bool :=
  decide (p ∈ d.dirs)

/-- `Path.rename`: the source directory takes the destination name. -/
def DirSystem.renameDir (d : DirSystem) (src dst : String) : DirSystem :=
  ⟨d.dirs.map fun x => if x = src then dst else x⟩

/-- The guarded rename for a known plan number: returns the directory system
afterwards and the working folder name. -/
def resolvePlanRename (d : DirSystem) (outputRoot planDir pn : String) :
    DirSystem × String :=
  let newDir := outputRoot ++ "/" ++ pn
  if newDir ≠ planDir ∧ ¬ d.dirExists newDir then
    (d.renameDir planDir newDir, newDir)
  else (d, planDir)

/-- The rename step as executed (`if plan_number:` guard included). -/
def resolvePlanNumber (d : DirSystem) (outputRoot planDir : String) :
    Option String → DirSystem × String
  | none => (d, planDir)
  | some pn => resolvePlanRename d outputRoot planDir pn

/-- C9: when `outputRoot/<planNumber>` already exists, resolving the plan
number leaves every directory untouched and the working folder keeps its
original name (no overwrite, no merge); and conversely any run that changes
the directory set can only have happened with a fresh, distinct target. -/
theorem rename_never_overwrites :
    (∀ (d : DirSystem) (outputRoot planDir pn : String),
      d.dirExists (outputRoot ++ "/" ++ pn) = true →
      resolvePlanNumber d outputRoot planDir (some pn) = (d, planDir)) ∧
    (∀ (d : DirSystem) (outputRoot planDir pn : String),
      (resolvePlanNumber d outputRoot planDir (some pn)).1 ≠ d →
      (outputRoot ++ "/" ++ pn) ≠ planDir ∧
        d.dirExists (outputRoot ++ "/" ++ pn) = false) := by
  constructor
  · intro d outputRoot planDir pn hex
    show resolvePlanRename d outputRoot planDir pn = (d, planDir)
    unfold resolvePlanRename
    rw [if_neg]
    intro hcon
    rw [hex] at hcon
    exact hcon.2 rfl
  · intro d outputRoot planDir pn hchange
    by_cases hcond : (outputRoot ++ "/" ++ pn) ≠ planDir ∧
        ¬ d.dirExists (outputRoot ++ "/" ++ pn)
    · exact ⟨hcond.1, by simpa using hcond.2⟩
    · exfalso
      apply hchange
      show (resolvePlanRename d outputRoot planDir pn).1 = d
      unfold resolvePlanRename
      rw [if_neg hcond]

/-- Witness for C9: a concrete directory layout where both the case folder
and the plan folder exist; resolution changes nothing, and the contrapositive
direction applied to an unchanged system is vacuous. -/
theorem rename_never_overwrites_witness :
    resolvePlanNumber ⟨["out/CASE1", "out/Z2024000202"]⟩ "out" "out/CASE1"
        (some "Z2024000202") = (⟨["out/CASE1", "out/Z2024000202"]⟩, "out/CASE1") :=
  rename_never_overwrites.1 ⟨["out/CASE1", "out/Z2024000202"]⟩ "out" "out/CASE1"
    "Z2024000202" (by decide)

/-! ## Batch driver: identifier routing and error isolation
(`batch_scraper.py` 160-184, `download_attachments.py` 142-146)

```python
is_uuid = len(identifier) == 36 and identifier.count("-") == 4
if is_uuid:
    await scraper.scrape_plan(case_id=identifier)
else:
    await scraper.scrape_plan(plan_number=identifier)
```
-/

/-- Python `s.count(c)` for a single-character needle. -/
def pyCount (s : String) (c : Char) : Nat :=
  s.data.count c

/-- The length heuristic of the batch driver. -/
def is_uuid (s : String) : Bool :=
  s.length == 36 && pyCount s '-' == 4

/-- How the driver invokes `scrape_plan`: with `case_id=` (no plan-number
search resolution) or with `plan_number=` (resolved by search). -/
inductive Route where
  | caseKey
  | planNumber
  deriving DecidableEq, Repr

def routeIdentifier (s : String) : Route :=
  if is_uuid s then .caseKey else .planNumber

/-- C10: an identifier is routed as a portal case key (skipping plan-number
search resolution) exactly when its length is 36 and it contains exactly
four hyphens; in particular the 36-character four-hyphen string
`ABCDEFGH-IJKL-MNOP-QRST-UVWXYZ012345`, which is not a real case key, is
still routed as a case key. -/
theorem identifier_routing_heuristic :
    (∀ s : String,
      routeIdentifier s = Route.caseKey ↔ (s.length = 36 ∧ pyCount s '-' = 4)) ∧
    routeIdentifier "ABCDEFGH-IJKL-MNOP-QRST-UVWXYZ012345" = Route.caseKey := by
  constructor
  · intro s
    unfold routeIdentifier is_uuid
    by_cases h1 : s.length = 36 <;> by_cases h2 : pyCount s '-' = 4 <;>
      simp [h1, h2]
  · decide

/-- Per-case scrape outcome as seen by the batch loop: `scrape_plan` either
returns or raises with an error message. -/
def ScrapeOracle : Type :=
  Route → String → Except String Unit

/-- Summary dictionary built by `scrape_batch`. -/
structure BatchResults where
  completed : List String
  failed : List (String × String)
  deriving DecidableEq, Repr

/-- The `for identifier in plan_identifiers` loop: on success mark completed,
on an exception record the identifier and message under `failed` and keep
going. -/
def scrapeBatchGo (scrape : ScrapeOracle) :
    List String → TrackerWorld → BatchResults → TrackerWorld × BatchResults
  | [], w, res => (w, res)
  | ident :: rest, w, res =>
    match scrape (routeIdentifier ident) ident with
    | .ok _ =>
      scrapeBatchGo scrape rest (mark_completed ident w)
        { res with completed := res.completed ++ [ident] }
    | .error e =>
      scrapeBatchGo scrape rest (mark_failed ident e w)
        { res with failed := res.failed ++ [(ident, e)] }

/-- `scrape_batch` in its non-resume form: set the pending list, then run the
loop with empty result accumulators. -/
def scrape_batch (scrape : ScrapeOracle) (ids : List String)
    (disk : Option ProgressState) : TrackerWorld × BatchResults :=
  scrapeBatchGo scrape ids (set_pending ids (initTracker disk)) ⟨[], []⟩

def scrapeOk (scrape : ScrapeOracle) (ident : String) : Bool :=
  match scrape (routeIdentifier ident) ident with
  | .ok _ => true
  | .error _ => false

def scrapeErr (scrape : ScrapeOracle) (ident : String) : Option (String × String) :=
  match scrape (routeIdentifier ident) ident with
  | .ok _ => none
  | .error e => some (ident, e)

theorem scrapeBatchGo_characterize (scrape : ScrapeOracle) (ids : List String)
    (w : TrackerWorld) (res : BatchResults) :
    (scrapeBatchGo scrape ids w res).2.completed
        = res.completed ++ ids.filter (scrapeOk scrape) ∧
    (scrapeBatchGo scrape ids w res).2.failed
        = res.failed ++ ids.filterMap (scrapeErr scrape) := by
  induction ids generalizing w res with
  | nil => simp [scrapeBatchGo]
  | cons ident rest ih =>
    rcases hs : scrape (routeIdentifier ident) ident with e | u
    · have hok : scrapeOk scrape ident = false := by simp [scrapeOk, hs]
      have herr : scrapeErr scrape ident = some (ident, e) := by
        simp [scrapeErr, hs]
      simp [scrapeBatchGo, hs, ih, hok, herr, List.filter_cons,
        List.filterMap_cons]
    · have hok : scrapeOk scrape ident = true := by simp [scrapeOk, hs]
      have herr : scrapeErr scrape ident = none := by simp [scrapeErr, hs]
      simp [scrapeBatchGo, hs, ih, hok, herr, List.filter_cons,
        List.filterMap_cons]

/-- C8: the batch loop never lets one case's error stop the rest — the final
summary's `completed` list holds exactly the identifiers whose scrape
returned (in order) and `failed` holds exactly the failing identifiers with
their error text (in order); with five identifiers where the third raises,
the summary has four completed entries and `failed` is exactly that one
identifier with its message. -/
theorem batch_continues_after_failure :
    (∀ (scrape : ScrapeOracle) (ids : List String) (disk : Option ProgressState),
      (scrape_batch scrape ids disk).2.completed = ids.filter (scrapeOk scrape) ∧
      (scrape_batch scrape ids disk).2.failed = ids.filterMap (scrapeErr scrape)) ∧
    ((scrape_batch
        (fun _ ident => if ident = "P3" then
            .error "IdentifierResolutionFailure" else .ok ())
        ["P1", "P2", "P3", "P4", "P5"] none).2.completed.length = 4 ∧
     (scrape_batch
        (fun _ ident => if ident = "P3" then
            .error "IdentifierResolutionFailure" else .ok ())
        ["P1", "P2", "P3", "P4", "P5"] none).2.failed
        = [("P3", "IdentifierResolutionFailure")]) := by
  constructor
  · intro scrape ids disk
    simpa using scrapeBatchGo_characterize scrape ids
      (set_pending ids (initTracker disk)) ⟨[], []⟩
  · constructor <;> decide

/-! ## Pattern extractor (`analyzer.py` 226-247)

`extract_key_data` runs `re.search(pattern, text, re.IGNORECASE)` for ten
fixed rules and keeps `match.group(1) if match.groups() else match.group(0)`.
We embed the exact regexes as an AST and implement a backtracking matcher
with Python preference order: alternatives left to right, star greedy,
`re.search` returning the match at the leftmost matching position. The
matcher carries fuel (any bound on the backtracking depth); recursion is
structural in the fuel so that concrete runs reduce in the kernel. -/

/-- One member of a character class. -/
inductive ClsItem where
  | single (c : Char)
  | range (lo hi : Char)
  | digitCls
  | spaceCls
  deriving DecidableEq, Repr

/-- Python `\s`: space, tab, newline, carriage return, vertical tab, form
feed. -/
def isSpaceChar (c : Char) : Bool :=
  c = ' ' || c = '\t' || c = '\n' || c = '\r' || c = '\x0b' || c = '\x0c'

def clsItemMatch (it : ClsItem) (c : Char) : Bool :=
  match it with
  | .single d => c = d
  | .range lo hi => lo ≤ c && c ≤ hi
  | .digitCls => c.isDigit
  | .spaceCls => isSpaceChar c

/-- Class membership under `re.IGNORECASE`: the character or one of its case
variants belongs to the class. -/
def clsMatch (items : List ClsItem) (neg : Bool) (c : Char) : Bool :=
  let base := fun x : Char => items.any fun it => clsItemMatch it x
  let m := base c || base c.toLower || base c.toUpper
  if neg then !m else m

/-- Regex AST covering the constructs of the pattern catalog. -/
inductive RE where
  | eps
  | lit (c : Char)
  | cls (items : List ClsItem) (neg : Bool)
  | seq (a b : RE)
  | alt (a b : RE)
  | star (a : RE)
  | grp (a : RE)
  deriving DecidableEq, Repr

def reSize : RE → Nat
  | .eps => 1
  | .lit _ => 1
  | .cls _ _ => 1
  | .seq a b => reSize a + reSize b + 1
  | .alt a b => reSize a + reSize b + 1
  | .star a => reSize a + 1
  | .grp a => reSize a + 1

/-- Matcher state: remaining input and the text captured by the (single)
capture group, if any. -/
structure MState where
  rest : List Char
  cap : Option (List Char)
  deriving DecidableEq, Repr

/-- Backtracking matcher: all ways `r` can match a prefix of `st.rest`, in
Python preference order (first element = the match `re.search` reports).
Literal comparison folds case, modelling `re.IGNORECASE`. The star case
recurses on states that consumed at least one character (Python's engine
likewise never loops on an empty-width star iteration) and offers the
zero-iteration state last (greedy). -/
def mrun : Nat → RE → MState → List MState
  | 0, _, _ => []
  | _ + 1, .eps, st => [st]
  | _ + 1, .lit c, st =>
    match st.rest with
    | [] => []
    | d :: ds => if d.toLower = c.toLower then [{ st with rest := ds }] else []
  | _ + 1, .cls items neg, st =>
    match st.rest with
    | [] => []
    | d :: ds => if clsMatch items neg d then [{ st with rest := ds }] else []
  | fuel + 1, .seq a b, st => (mrun fuel a st).flatMap (mrun fuel b)
  | fuel + 1, .alt a b, st => mrun fuel a st ++ mrun fuel b st
  | fuel + 1, .star a, st =>
    ((mrun fuel a st).filter fun st2 => st2.rest.length < st.rest.length).flatMap
      (mrun fuel (.star a)) ++ [st]
  | fuel + 1, .grp a, st =>
    (mrun fuel a st).map fun st2 =>
      { st2 with cap := some (st.rest.take (st.rest.length - st2.rest.length)) }

/-- Fuel bounding the backtracking depth of `r` on an input of length `n`:
every call consumes one unit; the depth is at most the pattern size times
the number of star restarts, each of which consumes input. -/
def matchFuel (r : RE) (n : Nat) : Nat :=
  reSize r * (n + 2)

/-- All matches of `r` anchored at the start of `s`, preference-ordered. -/
def matchAt (r : RE) (s : List Char) : List MState :=
  mrun (matchFuel r s.length) r ⟨s, none⟩

/-- `re.search`: try each start position left to right and report the
preferred match at the first position that matches at all; yields the whole
matched text and the capture. -/
def searchFrom (r : RE) : List Char → Option (List Char × Option (List Char))
  | [] =>
    match matchAt r [] with
    | st :: _ => some ([], st.cap)
    | [] => none
  | c :: tl =>
    match matchAt r (c :: tl) with
    | st :: _ =>
      some ((c :: tl).take ((c :: tl).length - st.rest.length), st.cap)
    | [] => searchFrom r tl

def reSearch (r : RE) (s : String) : Option (String × Option String) :=
  (searchFrom r s.data).map fun wc => (⟨wc.1⟩, wc.2.map fun g => ⟨g⟩)

/-! ### Derived constructors mirroring the regex notations in the catalog -/

def reStrGo : List Char → RE
  | [] => .eps
  | [c] => .lit c
  | c :: rest => .seq (.lit c) (reStrGo rest)

/-- A literal string. -/
def reStr (s : String) : RE :=
  reStrGo s.data

/-- `x+`. -/
def rePlus (a : RE) : RE :=
  .seq a (.star a)

/-- Greedy `x?`. -/
def reOpt (a : RE) : RE :=
  .alt a .eps

/-- `x{n}`. -/
def reRepeat (a : RE) : Nat → RE
  | 0 => .eps
  | n + 1 => .seq a (reRepeat a n)

def reDigit : RE :=
  .cls [.digitCls] false

def reSpace : RE :=
  .cls [.spaceCls] false

/-- Left-to-right alternation of a non-empty list. -/
def reAlts (a : RE) : List RE → RE
  | [] => a
  | b :: rest => .alt a (reAlts b rest)

/-! ### The pattern catalog, transcribed rule by rule -/

/-- `Z\d{10}` -/
def rePlanNumber : RE :=
  .seq (.lit 'Z') (reRepeat reDigit 10)

/-- `Folio[:\s#]*(\d{2}-\d{4}-\d{3}-\d{4})` -/
def reFolio : RE :=
  .seq (reStr "Folio")
    (.seq (.star (.cls [.single ':', .spaceCls, .single '#'] false))
      (.grp (.seq (reRepeat reDigit 2) (.seq (.lit '-')
        (.seq (reRepeat reDigit 4) (.seq (.lit '-')
          (.seq (reRepeat reDigit 3) (.seq (.lit '-')
            (reRepeat reDigit 4)))))))))

/-- `[:\s]*` -/
def reLabelSep : RE :=
  .star (.cls [.single ':', .spaceCls] false)

/-- `([^\n]+)` -/
def reRestOfLine : RE :=
  .grp (rePlus (.cls [.single '\n'] true))

/-- `(?:Property Address|Site Address|Location)[:\s]*([^\n]+)` -/
def reAddress : RE :=
  .seq (reAlts (reStr "Property Address") [reStr "Site Address", reStr "Location"])
    (.seq reLabelSep reRestOfLine)

/-- `(?:Owner|Applicant|Property Owner)[:\s]*([^\n]+)` -/
def reOwner : RE :=
  .seq (reAlts (reStr "Owner") [reStr "Applicant", reStr "Property Owner"])
    (.seq reLabelSep reRestOfLine)

/-- `([A-Z0-9-]+)` -/
def reZoneCode : RE :=
  .grp (rePlus (.cls [.range 'A' 'Z', .range '0' '9', .single '-'] false))

/-- `(?:Current Zoning|Existing Zoning)[:\s]*([A-Z0-9-]+)` -/
def reZoningCurrent : RE :=
  .seq (reAlts (reStr "Current Zoning") [reStr "Existing Zoning"])
    (.seq reLabelSep reZoneCode)

/-- `(?:Proposed Zoning|Requested Zoning)[:\s]*([A-Z0-9-]+)` -/
def reZoningProposed : RE :=
  .seq (reAlts (reStr "Proposed Zoning") [reStr "Requested Zoning"])
    (.seq reLabelSep reZoneCode)

/-- `(\d+\.?\d*)` -/
def reDecimalNumber : RE :=
  .grp (.seq (rePlus reDigit) (.seq (reOpt (.lit '.')) (.star reDigit)))

/-- `(\d+\.?\d*)\s*(?:acres?|AC)` -/
def reAcreage : RE :=
  .seq reDecimalNumber (.seq (.star reSpace)
    (reAlts (.seq (reStr "acre") (reOpt (.lit 's'))) [reStr "AC"]))

/-- `(\d+)\s*(?:units?|dwelling units?|DU)` -/
def reUnits : RE :=
  .seq (.grp (rePlus reDigit)) (.seq (.star reSpace)
    (reAlts (.seq (reStr "unit") (reOpt (.lit 's')))
      [.seq (reStr "dwelling unit") (reOpt (.lit 's')), reStr "DU"]))

/-- `(\d+\.?\d*)\s*(?:units per acre|DU/AC)` -/
def reDensity : RE :=
  .seq reDecimalNumber (.seq (.star reSpace)
    (reAlts (reStr "units per acre") [reStr "DU/AC"]))

/-- `(\d{1,3}(?:,\d{3})*)` : one to three digits (greedy), then
comma-separated 3-digit groups. -/
def reThousands : RE :=
  .grp (.seq (.seq reDigit (reOpt (.seq reDigit (reOpt reDigit))))
    (.star (.seq (.lit ',') (reRepeat reDigit 3))))

/-- `(\d{1,3}(?:,\d{3})*)\s*(?:sq\.?\s*ft\.?|SF|square feet)` -/
def reSquareFeet : RE :=
  .seq reThousands (.seq (.star reSpace)
    (reAlts (.seq (reStr "sq") (.seq (reOpt (.lit '.'))
        (.seq (.star reSpace) (.seq (reStr "ft") (reOpt (.lit '.'))))))
      [reStr "SF", reStr "square feet"]))

/-- The ordered rule catalog of `extract_key_data`. -/
def patternCatalog : List (String × RE) :=
  [("plan_number", rePlanNumber),
   ("folio", reFolio),
   ("address", reAddress),
   ("owner", reOwner),
   ("zoning_current", reZoningCurrent),
   ("zoning_proposed", reZoningProposed),
   ("acreage", reAcreage),
   ("units", reUnits),
   ("density", reDensity),
   ("square_feet", reSquareFeet)]

/-- Whether the pattern has a capture group (`match.groups()` non-empty). -/
def reHasGroup : RE → Bool
  | .eps => false
  | .lit _ => false
  | .cls _ _ => false
  | .seq a b => reHasGroup a || reHasGroup b
  | .alt a b => reHasGroup a || reHasGroup b
  | .star a => reHasGroup a
  | .grp _ => true

/-- `match.group(1) if match.groups() else match.group(0)`: the capture when
the pattern has a group (Python would store `None` if the group did not
participate), else the whole match. -/
def matchValue (r : RE) (whole : String) (cap : Option String) : Option String :=
  if reHasGroup r then cap else some whole

/-- The value `extract_key_data` would store for one rule: `none` when the
rule's pattern does not match the text at all. -/
def searchValue (r : RE) (text : String) : Option (Option String) :=
  (reSearch r text).map fun wc => matchValue r wc.1 wc.2

/-- `extract_key_data`: run every rule in catalog order; matched rules
contribute a key/value pair, unmatched rules are absent. -/
def extract_key_data (text : String) : List (String × Option String) :=
  patternCatalog.filterMap fun kr =>
    (searchValue kr.2 text).map fun v => (kr.1, v)

/-- `re.search` reports the match at the leftmost matching position: if the
search fails no position matches, and if it succeeds there is a position
whose preferred match supplies the reported text and capture while every
earlier position has no match at all. -/
theorem searchFrom_first_match (r : RE) (s : List Char) :
    (searchFrom r s = none → ∀ i, matchAt r (s.drop i) = []) ∧
    (∀ w c, searchFrom r s = some (w, c) →
      ∃ i st rest, matchAt r (s.drop i) = st :: rest ∧
        (∀ j, j < i → matchAt r (s.drop j) = []) ∧
        w = (s.drop i).take ((s.drop i).length - st.rest.length) ∧
        c = st.cap) := by
  induction s with
  | nil =>
    rcases h : matchAt r [] with _ | ⟨st, rest⟩
    · constructor
      · intro _ i
        simpa using h
      · intro w c hc
        simp [searchFrom, h] at hc
    · constructor
      · intro hn
        simp [searchFrom, h] at hn
      · intro w c hc
        simp only [searchFrom, h, Option.some.injEq, Prod.mk.injEq] at hc
        obtain ⟨rfl, rfl⟩ := hc
        exact ⟨0, st, rest, by simpa using h,
          fun j hj => absurd hj (Nat.not_lt_zero j), by simp, rfl⟩
  | cons a tl ih =>
    rcases h : matchAt r (a :: tl) with _ | ⟨st, rest⟩
    · have hred : searchFrom r (a :: tl) = searchFrom r tl := by
        simp [searchFrom, h]
      constructor
      · intro hn i
        match i with
        | 0 => simpa using h
        | i + 1 =>
          rw [hred] at hn
          simpa using ih.1 hn i
      · intro w c hc
        rw [hred] at hc
        obtain ⟨i, st, rest, h1, h2, h3, h4⟩ := ih.2 w c hc
        refine ⟨i + 1, st, rest, by simpa using h1, ?_, by simpa using h3, h4⟩
        intro j hj
        match j with
        | 0 => simpa using h
        | j + 1 => simpa using h2 j (Nat.lt_of_succ_lt_succ hj)
    · constructor
      · intro hn
        simp [searchFrom, h] at hn
      · intro w c hc
        simp only [searchFrom, h, Option.some.injEq, Prod.mk.injEq] at hc
        obtain ⟨rfl, rfl⟩ := hc
        exact ⟨0, st, rest, by simpa using h,
          fun j hj => absurd hj (Nat.not_lt_zero j), by simp, rfl⟩

theorem lookup_filterMap_keyed_notmem (g : RE → Option (Option String)) :
    ∀ (l : List (String × RE)) (key : String), key ∉ l.map Prod.fst →
      (l.filterMap fun kr => (g kr.2).map fun v => (kr.1, v)).lookup key = none := by
  intro l
  induction l with
  | nil => intro key _; rfl
  | cons kr rest ih =>
    intro key hk
    simp only [List.map_cons, List.mem_cons, not_or] at hk
    have hne : (key == kr.1) = false := by simp [hk.1]
    rcases hg : g kr.2 with _ | v
    · simp only [List.filterMap_cons, hg, Option.map_none']
      exact ih key hk.2
    · simp only [List.filterMap_cons, hg, Option.map_some', List.lookup, hne]
      exact ih key hk.2

theorem lookup_filterMap_keyed (g : RE → Option (Option String)) :
    ∀ (l : List (String × RE)) (key : String) (r : RE),
      (l.map Prod.fst).Nodup → l.lookup key = some r →
      (l.filterMap fun kr => (g kr.2).map fun v => (kr.1, v)).lookup key = g r := by
  intro l
  induction l with
  | nil => intro key r _ hl; simp [List.lookup] at hl
  | cons kr rest ih =>
    intro key r hnd hl
    simp only [List.map_cons, List.nodup_cons] at hnd
    by_cases hk : key = kr.1
    · have heq : (key == kr.1) = true := by simp [hk]
      rw [List.lookup] at hl
      simp only [heq] at hl
      obtain rfl : kr.2 = r := by injection hl
      rcases hg : g kr.2 with _ | v
      · simp only [List.filterMap_cons, hg, Option.map_none']
        rw [lookup_filterMap_keyed_notmem g rest key (by rw [hk]; exact hnd.1)]
      · simp only [List.filterMap_cons, hg, Option.map_some', List.lookup, heq, hg]
    · have hne : (key == kr.1) = false := by simp [hk]
      rw [List.lookup] at hl
      simp only [hne] at hl
      rcases hg : g kr.2 with _ | v
      · simp only [List.filterMap_cons, hg, Option.map_none']
        exact ih key r hnd.2 hl
      · simp only [List.filterMap_cons, hg, Option.map_some', List.lookup, hne]
        exact ih key r hnd.2 hl

theorem extract_key_data_lookup (text key : String) (r : RE)
    (h : patternCatalog.lookup key = some r) :
    (extract_key_data text).lookup key = searchValue r text := by
  have hmain := lookup_filterMap_keyed (fun p => searchValue p text)
    patternCatalog key r (by decide) h
  simpa [extract_key_data] using hmain

/-- C6: on text `"Folio: 30-1234-567-8901"` the extractor yields
`folio = "30-1234-567-8901"`, on `"Z2024000202"` it yields
`plan_number = "Z2024000202"`; for every rule of the catalog a field is
absent from the result exactly when its pattern has no match, and on a match
the stored value is the capture when the pattern has a capture group and the
whole match otherwise; the reported match is the one at the first matching
position in document order (the extractor is a total function, so it never
throws). -/
theorem pattern_extractor_contract :
    ((extract_key_data "Folio: 30-1234-567-8901").lookup "folio"
        = some (some "30-1234-567-8901")) ∧
    ((extract_key_data "Z2024000202").lookup "plan_number"
        = some (some "Z2024000202")) ∧
    (∀ (text key : String) (r : RE), patternCatalog.lookup key = some r →
      ((extract_key_data text).lookup key = none ↔ reSearch r text = none) ∧
      (∀ w c, reSearch r text = some (w, c) →
        (extract_key_data text).lookup key
          = some (if reHasGroup r then c else some w))) ∧
    (∀ (r : RE) (s : List Char),
      (searchFrom r s = none → ∀ i, matchAt r (s.drop i) = []) ∧
      (∀ w c, searchFrom r s = some (w, c) →
        ∃ i st rest, matchAt r (s.drop i) = st :: rest ∧
          (∀ j, j < i → matchAt r (s.drop j) = []) ∧
          w = (s.drop i).take ((s.drop i).length - st.rest.length) ∧
          c = st.cap)) := by
  refine ⟨by decide, by decide, ?_, searchFrom_first_match⟩
  intro text key r h
  rw [extract_key_data_lookup text key r h]
  constructor
  · unfold searchValue
    rcases reSearch r text with _ | wc <;> simp
  · intro w c hc
    unfold searchValue matchValue
    rw [hc]
    rfl

/-- Witness for C6 at concrete inputs: instantiating the absence
characterization and the match-value rule for the folio pattern on the folio
example text. -/
theorem pattern_extractor_contract_witness :
    (((extract_key_data "Folio: 30-1234-567-8901").lookup "folio" = none) ↔
      reSearch reFolio "Folio: 30-1234-567-8901" = none) ∧
    (extract_key_data "Folio: 30-1234-567-8901").lookup "folio"
      = some (if reHasGroup reFolio then some "30-1234-567-8901"
          else some "Folio: 30-1234-567-8901") := by
  have h := pattern_extractor_contract.2.2.1 "Folio: 30-1234-567-8901" "folio"
    reFolio (by decide)
  exact ⟨h.1, h.2 "Folio: 30-1234-567-8901" (some "30-1234-567-8901") (by decide)⟩

/-! ## Document content extractor (`analyzer.py` 194-223)

```python
try:
    with pdfplumber.open(pdf_path) as pdf:
        page_count = len(pdf.pages)
        for page in pdf.pages:
            text = page.extract_text() or ""
            text_content.append(text)
            page_tables = page.extract_tables()
            if page_tables: tables.extend(page_tables)
except Exception as e:
    text_content.append(f"[Error: {e}]")
full_text = "\n".join(text_content)
key_data = extract_key_data(full_text)
return PDFContent(..., text=full_text[:5000], tables=tables[:5], key_data=key_data)
```

The library open is an oracle: `Except.error e` models `pdfplumber.open`
raising with message `e`. Tables are opaque ids (their content is only
collected and truncated, never inspected). -/

/-- One page as pdfplumber reports it: `extract_text()` may return `None`. -/
structure PdfPage where
  text : Option String
  tables : List Nat
  deriving DecidableEq, Repr

/-- The extracted-document record of the source. -/
structure PDFContent where
  filename : String
  text : String
  page_count : Nat
  tables : List Nat
  key_data : List (String × Option String)
  deriving DecidableEq, Repr

/-- Python `"\n".join(strings)`. -/
def pyJoinNewline : List String → String
  | [] => ""
  | [s] => s
  | s :: rest => s ++ "\n" ++ pyJoinNewline rest

/-- Python `s[:n]`. -/
def pyTake (s : String) (n : Nat) : String :=
  ⟨s.data.take n⟩

/-- `extract_pdf_content`, with the pdfplumber open call as an oracle. -/
def extract_pdf_content (openResult : Except String (List PdfPage))
    (fileName : String) : PDFContent :=
  match openResult with
  | .error e =>
    let fullText := pyJoinNewline ["[Error: " ++ e ++ "]"]
    { filename := fileName
      text := pyTake fullText 5000
      page_count := 0
      tables := []
      key_data := extract_key_data fullText }
  | .ok pages =>
    let textContent := pages.map fun p => p.text.getD ""
    let allTables := (pages.map PdfPage.tables).flatten
    let fullText := pyJoinNewline textContent
    { filename := fileName
      text := pyTake fullText 5000
      page_count := pages.length
      tables := allTables.take 5
      key_data := extract_key_data fullText }

/-- C7 fails on the code: `key_data` of the degenerate record is pattern
extraction over the diagnostic text, not the empty mapping — an open failure
whose message mentions `Z2024000202.pdf` (the usual shape of a
file-not-found message for a plan-named file) yields a non-empty `key_data`
containing that plan number. -/
theorem extraction_failure_keydata_counterexample :
    (extract_pdf_content (.error "No such file: Z2024000202.pdf")
        "Z2024000202.pdf").key_data
      = [("plan_number", some "Z2024000202")] ∧
    (extract_pdf_content (.error "No such file: Z2024000202.pdf")
        "Z2024000202.pdf").key_data ≠ [] := by
  constructor <;> decide

/-- C7 amended: when the file cannot be opened at all the extractor returns
(it is a total function, so it never raises) a degenerate record whose text
preview is the diagnostic `[Error: …]` string, whose page count is zero and
table list empty, and whose `key_data` is the pattern extraction over that
diagnostic text — empty exactly when no catalog pattern matches the
diagnostic. -/
theorem extraction_failure_degrades (e fileName : String) :
    (extract_pdf_content (.error e) fileName).text
        = pyTake ("[Error: " ++ e ++ "]") 5000 ∧
    (extract_pdf_content (.error e) fileName).page_count = 0 ∧
    (extract_pdf_content (.error e) fileName).tables = [] ∧
    (extract_pdf_content (.error e) fileName).key_data
        = extract_key_data ("[Error: " ++ e ++ "]") :=
  ⟨rfl, rfl, rfl, rfl⟩

end EnerGov
